import Mathlib

/-!
# Verification of the session-storage adapters

A shallow embedding, in Lean 4, of the conversation-history store: the
in-memory adapter (InMemorySession), the embedded SQLite adapter
(SQLiteSession), the Drizzle ORM adapter (DrizzleSession, with its three SQL
dialects), and the Sequelize adapter (SequelizeSession).

Modelling conventions, shared by all definitions below:

* An item (one opaque JSON-serializable conversation turn) is modelled as a
  `String`.  The serialized payload stored in a message row is modelled as
  `Option Item`: `some v` stands for the text produced by JSON.stringify
  applied to `v` (which JSON.parse inverts), `none` stands for a stored text
  that fails JSON.parse.
* A messages table is a `List Row` kept in insertion order.  Every insert
  appends a row whose id is strictly larger than every id already present
  (the AUTOINCREMENT / SERIAL / AUTO_INCREMENT behaviour of the engines), so
  on every table reachable by the adapters the list order, the id order and
  the insertion order agree; theorems state this as an explicit
  `idsStrictMono` hypothesis.  Row timestamps are assigned from a
  monotone wall clock, stated as the `createdAtMono` hypothesis.
* An SQL ORDER BY is embedded as an insertion sort by the corresponding key;
  a descending ORDER BY is the reverse of the ascending one.  SQL leaves the
  relative order of key-ties unspecified, so this is one legitimate
  refinement of the engine's behaviour (and on the tables produced by the
  adapters the sort keys below are strictly increasing, so no tie exists).
* LIMIT with a negative argument is unbounded (SQLite semantics, which is
  the engine behind SQLiteSession, the one adapter that can pass a
  non-positive limit through to SQL).
-/

/-- An opaque conversation item. -/
abbrev Item := String

/-- One row of a messages table (`session_items` for SQLiteSession and
SequelizeSession, `agent_messages` for DrizzleSession): auto-increment id,
owning session key, serialized payload, insertion timestamp.  The payload is
`some v` for well-formed serialized items and `none` for a stored text that
fails JSON.parse. -/
structure Row where
  id : Nat
  sessionId : String
  itemData : Option Item
  createdAt : Nat
deriving Repr, DecidableEq

/-- A messages table, as the list of its rows in insertion order. -/
abbrev Table := List Row

/-- Ids strictly increase along the table (AUTOINCREMENT along insertion
order); in particular all ids are distinct. -/
def idsStrictMono (t : Table) : Prop :=
  t.Pairwise (fun a b => a.id < b.id)

/-- Timestamps never decrease along the table (rows are stamped by a
monotone wall clock). -/
def createdAtMono (t : Table) : Prop :=
  t.Pairwise (fun a b => a.createdAt ≤ b.createdAt)

instance (t : Table) : Decidable (idsStrictMono t) :=
  inferInstanceAs (Decidable (t.Pairwise _))

instance (t : Table) : Decidable (createdAtMono t) :=
  inferInstanceAs (Decidable (t.Pairwise _))

/-- WHERE session_id = sid, keeping table order. -/
def rowsFor (t : Table) (sid : String) : Table :=
  t.filter (fun r => r.sessionId = sid)

/-- The well-formed payloads of a list of rows, in order (rows whose payload
fails to parse are skipped). -/
def payloads (rows : Table) : List Item :=
  rows.filterMap (fun r => r.itemData)

/-- Error message produced by a JSON.parse failure that escapes to the
caller. -/
def parseErrMsg : String := "JSON.parse: unexpected token"

/-- Parse every row's payload, propagating the first failure to the caller
(the behaviour of a bare JSON.parse inside a map, as in SQLiteSession's and
SequelizeSession's getItems). -/
def parseAll : Table → Except String (List Item)
  | [] => Except.ok []
  | r :: rest =>
    match r.itemData with
    | none => Except.error parseErrMsg
    | some v =>
      match parseAll rest with
      | Except.ok vs => Except.ok (v :: vs)
      | Except.error e => Except.error e

section Ordering

variable {κ : Type} [LinearOrder κ]

/-- Comparison of rows by a sort key. -/
def keyle (key : Row → κ) (a b : Row) : Prop := key a ≤ key b

instance (key : Row → κ) : DecidableRel (keyle key) :=
  fun a b => inferInstanceAs (Decidable (key a ≤ key b))

/-- ORDER BY key ASC. -/
def sortAscBy (key : Row → κ) (rows : Table) : Table :=
  List.insertionSort (keyle key) rows

/-- ORDER BY key DESC (the reverse of the ascending order; SQL leaves
key-ties unordered, so this is a legitimate refinement). -/
def sortDescBy (key : Row → κ) (rows : Table) : Table :=
  (sortAscBy key rows).reverse

end Ordering

/-- Sort key of SQLiteSession's and SequelizeSession's queries: the id
column alone. -/
def idKey (r : Row) : Nat := r.id

/-- Sort key of DrizzleSession's queries: ORDER BY created_at, id —
timestamp first, id as tie-break. -/
def drizzleKey (r : Row) : Nat ×ₗ Nat := toLex (r.createdAt, r.id)

/-- SQL LIMIT: a negative limit is unbounded (SQLite semantics). -/
def sqlLimit (l : Int) (rows : Table) : Table :=
  if l < 0 then rows else rows.take l.toNat

/-- The id a fresh insert receives: strictly larger than every id present
(auto-increment). -/
def nextId (t : Table) : Nat :=
  (t.map (fun r => r.id)).foldr Nat.max 0 + 1

/-- INSERT of a single row. -/
def insertRow (t : Table) (sid : String) (d : Option Item) (now : Nat) : Table :=
  t ++ [⟨nextId t, sid, d, now⟩]

/-- The rows one SQLiteSession.addItems call appends: consecutive ids from
`startId`, all carrying the same `now` timestamp (Date.now() is read once
per batch, before the per-item insert loop). -/
def batchRows (startId : Nat) (sid : String) (now : Nat) : List Item → Table
  | [] => []
  | v :: vs => ⟨startId, sid, some v, now⟩ :: batchRows (startId + 1) sid now vs

/-- SQLiteSession.addItems: one transaction that evaluates Date.now() once
and then inserts the items in order, each as a row stamped with that single
timestamp. (The items.length = 0 early return inserts nothing, which the
fold also models.) -/
def sqliteAddItems (t : Table) (sid : String) (now : Nat) (items : List Item) : Table :=
  items.foldl (fun acc v => insertRow acc sid (some v) now) t

-- Basic lemmas about the embedding of inserts.

theorem foldr_max_shift (l : List Nat) (b : Nat) :
    l.foldr Nat.max b = Nat.max (l.foldr Nat.max 0) b := by
  induction l with
  | nil => simp
  | cons a l ih =>
    simp only [List.foldr_cons, ih]
    exact (Nat.max_assoc a _ b).symm

theorem nextId_append_single (t : Table) (r : Row) :
    nextId (t ++ [r]) = Nat.max (nextId t) (r.id + 1) := by
  unfold nextId
  rw [List.map_append, List.foldr_append]
  simp only [List.map_cons, List.map_nil, List.foldr_cons, List.foldr_nil]
  rw [foldr_max_shift]
  simp only [Nat.max_def]
  split_ifs <;> omega

theorem sqliteAddItems_eq_batch (t : Table) (sid : String) (now : Nat)
    (items : List Item) :
    sqliteAddItems t sid now items = t ++ batchRows (nextId t) sid now items := by
  induction items generalizing t with
  | nil => simp [sqliteAddItems, batchRows]
  | cons v vs ih =>
    have hnext : nextId (t ++ [(⟨nextId t, sid, some v, now⟩ : Row)]) = nextId t + 1 := by
      rw [nextId_append_single]
      simp only [Nat.max_def]
      split_ifs <;> omega
    calc sqliteAddItems t sid now (v :: vs)
        = sqliteAddItems (t ++ [⟨nextId t, sid, some v, now⟩]) sid now vs := by
          simp [sqliteAddItems, insertRow]
      _ = (t ++ [⟨nextId t, sid, some v, now⟩]) ++ batchRows (nextId t + 1) sid now vs := by
          rw [ih, hnext]
      _ = t ++ batchRows (nextId t) sid now (v :: vs) := by
          simp [batchRows]

-- Ordering lemmas: on tables whose sort keys strictly increase in insertion
-- order, the embedded ORDER BY operations coincide with list order.

section SortLemmas

variable {κ : Type} [LinearOrder κ]

theorem sortAscBy_of_sorted (key : Row → κ) {l : Table}
    (h : l.Pairwise (keyle key)) : sortAscBy key l = l :=
  List.Sorted.insertionSort_eq h

theorem orderedInsert_of_forall_lt (key : Row → κ) (x : Row) :
    ∀ (l : Table), (∀ b ∈ l, key b < key x) →
      List.orderedInsert (keyle key) x l = l ++ [x] := by
  intro l
  induction l with
  | nil => intro _; rfl
  | cons b l ih =>
    intro h
    have hb : key b < key x := h b (List.mem_cons_self b l)
    have : ¬ keyle key x b := by
      simp only [keyle]
      exact not_le.mpr hb
    simp only [List.orderedInsert, if_neg this, List.cons_append]
    rw [ih (fun c hc => h c (List.mem_cons_of_mem b hc))]

theorem sortAscBy_of_pairwise_gt (key : Row → κ) {l : Table}
    (h : l.Pairwise (fun a b => key b < key a)) : sortAscBy key l = l.reverse := by
  induction l with
  | nil => rfl
  | cons x xs ih =>
    rw [List.pairwise_cons] at h
    have hx : ∀ b ∈ xs.reverse, key b < key x := by
      intro b hb
      exact h.1 b (List.mem_reverse.mp hb)
    simp only [sortAscBy, List.insertionSort]
    rw [show List.insertionSort (keyle key) xs = sortAscBy key xs from rfl, ih h.2]
    rw [orderedInsert_of_forall_lt key x xs.reverse hx]
    simp

theorem sortDescBy_of_sorted (key : Row → κ) {l : Table}
    (h : l.Pairwise (keyle key)) : sortDescBy key l = l.reverse := by
  rw [sortDescBy, sortAscBy_of_sorted key h]

/-- ORDER BY key DESC LIMIT k, then re-sorted ascending: the tail window of
the last k elements, in order. -/
theorem window_eq_drop (key : Row → κ) {l : Table} (k : Nat)
    (h : l.Pairwise (fun a b => key a < key b)) :
    sortAscBy key ((sortDescBy key l).take k) = l.drop (l.length - k) := by
  have hle : l.Pairwise (keyle key) := h.imp (fun hab => le_of_lt hab)
  rw [sortDescBy_of_sorted key hle]
  have hrev : (l.reverse.take k).Pairwise (fun a b => key b < key a) :=
    (List.pairwise_reverse.mpr h).take
  rw [sortAscBy_of_pairwise_gt key hrev, List.take_reverse, List.reverse_reverse]

end SortLemmas

theorem rowsFor_pairwise {R : Row → Row → Prop} {t : Table} (sid : String)
    (h : t.Pairwise R) : (rowsFor t sid).Pairwise R :=
  h.filter _

/-- On a table with strictly increasing ids and nondecreasing timestamps,
the key ORDER BY (created_at, id) strictly increases in insertion order. -/
theorem drizzleKey_pairwise {t : Table} (hid : idsStrictMono t)
    (hts : createdAtMono t) :
    t.Pairwise (fun a b => drizzleKey a < drizzleKey b) := by
  have hand := hid.and hts
  refine hand.imp (fun {a b} hab => ?_)
  rcases lt_or_eq_of_le hab.2 with hlt | heq
  · exact (Prod.Lex.lt_iff _ _).mpr (Or.inl hlt)
  · exact (Prod.Lex.lt_iff _ _).mpr (Or.inr ⟨heq, hab.1⟩)

theorem idKey_pairwise {t : Table} (hid : idsStrictMono t) :
    t.Pairwise (fun a b => idKey a < idKey b) := hid

/-!
## The read, pop and clear operations of each adapter
-/

/-- SQLiteSession.getItems row selection.  The source guards the two query
shapes with a JS truthiness test on `limit`, so a limit of 0 selects the
no-limit query (the whole history), and a negative limit reaches SQL as a
negative LIMIT, which SQLite treats as unbounded.  The bounded branch is the
inner newest-first window (ORDER BY id DESC LIMIT l) re-sorted ascending by
the outer query. -/
def sqliteGetRows (t : Table) (sid : String) (limit? : Option Int) : Table :=
  match limit? with
  | none => sortAscBy idKey (rowsFor t sid)
  | some l =>
    if l = 0 then sortAscBy idKey (rowsFor t sid)
    else sortAscBy idKey (sqlLimit l (sortDescBy idKey (rowsFor t sid)))

/-- SQLiteSession.getItems: JSON.parse is applied bare inside a map, so one
unparseable payload rejects the whole call. -/
def sqliteGetItems (t : Table) (sid : String) (limit? : Option Int) :
    Except String (List Item) :=
  parseAll (sqliteGetRows t sid limit?)

/-- DrizzleSession.getItems row selection, common to its getSqliteItems,
getPgItems and getMysqlItems (the three issue the same logical query): an
explicit `limit <= 0 → empty` guard, otherwise the newest-l window by
ORDER BY created_at DESC, id DESC LIMIT l, re-sorted chronologically
(created_at ASC, id ASC) by the outer query. -/
def drizzleGetRows (t : Table) (sid : String) (limit? : Option Int) : Table :=
  match limit? with
  | none => sortAscBy drizzleKey (rowsFor t sid)
  | some l =>
    if l ≤ 0 then []
    else sortAscBy drizzleKey ((sortDescBy drizzleKey (rowsFor t sid)).take l.toNat)

/-- DrizzleSession.getItems: parseItems catches each row's JSON.parse
failure, logs it and filters the row out, so the call never rejects. -/
def drizzleGetItems (t : Table) (sid : String) (limit? : Option Int) : List Item :=
  payloads (drizzleGetRows t sid limit?)

/-- SequelizeSession.getItems row selection: findAll ordered by id ASC with
`limit` passed through, plus — only when `limit` is truthy — an offset of
max(0, count - limit).  A limit of 0 is falsy, so no offset is added and the
SQL LIMIT 0 returns nothing. -/
def sequelizeGetRows (t : Table) (sid : String) (limit? : Option Int) : Table :=
  match limit? with
  | none => sortAscBy idKey (rowsFor t sid)
  | some l =>
    if l = 0 then sqlLimit l (sortAscBy idKey (rowsFor t sid))
    else
      sqlLimit l ((sortAscBy idKey (rowsFor t sid)).drop
        (Int.toNat (max 0 (((rowsFor t sid).length : Int) - l))))

/-- SequelizeSession.getItems: JSON.parse applied bare inside a map, so one
unparseable payload rejects the whole call. -/
def sequelizeGetItems (t : Table) (sid : String) (limit? : Option Int) :
    Except String (List Item) :=
  parseAll (sequelizeGetRows t sid limit?)

/-- InMemorySession.getItems: a shallow copy when limit is undefined,
otherwise items.slice(Math.max(0, length - limit)). -/
def inMemoryGetItems (items : List Item) (limit? : Option Int) : List Item :=
  match limit? with
  | none => items
  | some l => items.drop (Int.toNat (max 0 ((items.length : Int) - l)))

/-- DELETE WHERE id = i. -/
def deleteById (t : Table) (i : Nat) : Table :=
  t.filter (fun r => ¬ r.id = i)

/-- SQLiteSession.popItem: select the newest row (ORDER BY id DESC LIMIT 1);
absent → undefined; otherwise DELETE by its id and then JSON.parse the
payload — the parse is bare, so a failure propagates after the row was
already deleted. -/
def sqlitePop (t : Table) (sid : String) : Table × Except String (Option Item) :=
  match (sortDescBy idKey (rowsFor t sid)).head? with
  | none => (t, Except.ok none)
  | some row =>
    (deleteById t row.id,
     match row.itemData with
     | some v => Except.ok (some v)
     | none => Except.error parseErrMsg)

/-- DrizzleSession.popItem, common to popSqliteItem, popPgItem (whose
DELETE ... RETURNING has the same sequential meaning) and popMysqlItem:
select the newest row by ORDER BY created_at DESC, id DESC LIMIT 1, delete
it by id, and parse inside try/catch — a parse failure is logged and
surfaces as undefined, with the row nevertheless deleted. -/
def drizzlePop (t : Table) (sid : String) : Table × Except String (Option Item) :=
  match (sortDescBy drizzleKey (rowsFor t sid)).head? with
  | none => (t, Except.ok none)
  | some row =>
    (deleteById t row.id,
     match row.itemData with
     | some v => Except.ok (some v)
     | none => Except.ok none)

/-- SequelizeSession.popItem: findOne ordered by id DESC; absent →
undefined; otherwise JSON.parse runs BEFORE row.destroy(), so a parse
failure propagates with the row still in the table. -/
def sequelizePop (t : Table) (sid : String) : Table × Except String (Option Item) :=
  match (sortDescBy idKey (rowsFor t sid)).head? with
  | none => (t, Except.ok none)
  | some row =>
    match row.itemData with
    | some v => (deleteById t row.id, Except.ok (some v))
    | none => (t, Except.error parseErrMsg)

/-- InMemorySession.popItem: Array.prototype.pop. -/
def inMemoryPop (items : List Item) : List Item × Option Item :=
  (items.dropLast, items.getLast?)

/-- clearSession on the messages table.  SQLiteSession and SequelizeSession
issue DELETE WHERE session_id = sid directly; DrizzleSession deletes the
agent_sessions row and the ON DELETE CASCADE foreign key removes exactly the
messages with that session key, so the effect on the messages table is the
same filter. -/
def clearSession (t : Table) (sid : String) : Table :=
  t.filter (fun r => ¬ r.sessionId = sid)

/-- n successive popItem calls through one of the row-table adapters,
collecting the results in call order. -/
def popNWith (step : Table → String → Table × Except String (Option Item)) :
    Nat → Table → String → Table × List (Except String (Option Item))
  | 0, t, _ => (t, [])
  | n + 1, t, sid =>
    let p := step t sid
    let rest := popNWith step n p.1 sid
    (rest.1, p.2 :: rest.2)

/-- n successive InMemorySession.popItem calls. -/
def inMemoryPopN : Nat → List Item → List Item × List (Option Item)
  | 0, items => (items, [])
  | n + 1, items =>
    let p := inMemoryPop items
    let rest := inMemoryPopN n p.1
    (rest.1, p.2 :: rest.2)

/-!
## Characterisation of the read paths
-/

theorem parseAll_of_all_some :
    ∀ {rows : Table}, (∀ r ∈ rows, (r.itemData).isSome) →
      parseAll rows = Except.ok (payloads rows) := by
  intro rows
  induction rows with
  | nil => intro _; rfl
  | cons r rest ih =>
    intro h
    have hr := h r (List.mem_cons_self r rest)
    obtain ⟨v, hv⟩ := Option.isSome_iff_exists.mp hr
    have hrest := ih (fun x hx => h x (List.mem_cons_of_mem r hx))
    simp [parseAll, payloads, hv, List.filterMap_cons] at *
    simp [hrest, payloads]

theorem rowsFor_sorted_id {t : Table} (hid : idsStrictMono t) (sid : String) :
    sortAscBy idKey (rowsFor t sid) = rowsFor t sid :=
  sortAscBy_of_sorted idKey
    ((idKey_pairwise (rowsFor_pairwise sid hid)).imp (fun h => le_of_lt h))

theorem rowsFor_sorted_drizzle {t : Table} (hid : idsStrictMono t)
    (hts : createdAtMono t) (sid : String) :
    sortAscBy drizzleKey (rowsFor t sid) = rowsFor t sid :=
  sortAscBy_of_sorted drizzleKey
    ((drizzleKey_pairwise (rowsFor_pairwise sid hid)
        (rowsFor_pairwise sid hts)).imp (fun h => le_of_lt h))

theorem sqliteGetRows_full {t : Table} (hid : idsStrictMono t) (sid : String)
    {l? : Option Int} (h : l? = none ∨ ∃ l, l? = some l ∧ l ≤ 0) :
    sqliteGetRows t sid l? = rowsFor t sid := by
  have hstrict := idKey_pairwise (rowsFor_pairwise sid hid)
  have hle := hstrict.imp (fun h => le_of_lt (α := Nat) h)
  rcases h with h | ⟨l, hl, hle0⟩
  · subst h
    exact rowsFor_sorted_id hid sid
  · subst hl
    by_cases h0 : l = 0
    · subst h0
      simp [sqliteGetRows, rowsFor_sorted_id hid sid]
    · have hneg : l < 0 := lt_of_le_of_ne hle0 h0
      simp only [sqliteGetRows, if_neg h0, sqlLimit, if_pos hneg]
      rw [sortDescBy_of_sorted idKey hle]
      rw [sortAscBy_of_pairwise_gt idKey (List.pairwise_reverse.mpr hstrict)]
      exact List.reverse_reverse _

theorem sqliteGetRows_pos {t : Table} (hid : idsStrictMono t) (sid : String)
    {l : Int} (hl : 0 < l) :
    sqliteGetRows t sid (some l)
      = (rowsFor t sid).drop ((rowsFor t sid).length - l.toNat) := by
  have hstrict := idKey_pairwise (rowsFor_pairwise sid hid)
  have h0 : ¬ l = 0 := by omega
  have hneg : ¬ l < 0 := by omega
  simp only [sqliteGetRows, if_neg h0, sqlLimit, if_neg hneg]
  exact window_eq_drop idKey l.toNat hstrict

theorem drizzleGetRows_none {t : Table} (hid : idsStrictMono t)
    (hts : createdAtMono t) (sid : String) :
    drizzleGetRows t sid none = rowsFor t sid :=
  rowsFor_sorted_drizzle hid hts sid

theorem drizzleGetRows_nonpos (t : Table) (sid : String) {l : Int} (hl : l ≤ 0) :
    drizzleGetRows t sid (some l) = [] := by
  simp [drizzleGetRows, hl]

theorem drizzleGetRows_pos {t : Table} (hid : idsStrictMono t)
    (hts : createdAtMono t) (sid : String) {l : Int} (hl : 0 < l) :
    drizzleGetRows t sid (some l)
      = (rowsFor t sid).drop ((rowsFor t sid).length - l.toNat) := by
  have hstrict := drizzleKey_pairwise (rowsFor_pairwise sid hid)
    (rowsFor_pairwise sid hts)
  have h0 : ¬ l ≤ 0 := by omega
  simp only [drizzleGetRows, if_neg h0]
  exact window_eq_drop drizzleKey l.toNat hstrict

theorem sequelizeGetRows_none {t : Table} (hid : idsStrictMono t) (sid : String) :
    sequelizeGetRows t sid none = rowsFor t sid :=
  rowsFor_sorted_id hid sid

theorem sequelizeGetRows_zero (t : Table) (sid : String) :
    sequelizeGetRows t sid (some 0) = [] := by
  simp [sequelizeGetRows, sqlLimit]

theorem sequelizeGetRows_pos {t : Table} (hid : idsStrictMono t) (sid : String)
    {l : Int} (hl : 0 < l) :
    sequelizeGetRows t sid (some l)
      = (rowsFor t sid).drop ((rowsFor t sid).length - l.toNat) := by
  have h0 : ¬ l = 0 := by omega
  have hneg : ¬ l < 0 := by omega
  simp only [sequelizeGetRows, if_neg h0, rowsFor_sorted_id hid sid, sqlLimit,
    if_neg hneg]
  have harg : (Int.toNat (max 0 (((rowsFor t sid).length : Int) - l)))
      = (rowsFor t sid).length - l.toNat := by
    omega
  rw [harg]
  apply List.take_of_length_le
  rw [List.length_drop]
  omega

theorem inMemoryGetItems_nonpos (items : List Item) {l : Int} (hl : l ≤ 0) :
    inMemoryGetItems items (some l) = [] := by
  simp only [inMemoryGetItems]
  apply List.drop_eq_nil_of_le
  omega

theorem inMemoryGetItems_pos (items : List Item) {l : Int} (hl : 0 < l) :
    inMemoryGetItems items (some l) = items.drop (items.length - l.toNat) := by
  simp only [inMemoryGetItems]
  congr 1
  omega

theorem parseRowsFor_drop {t : Table} (hparse : ∀ r ∈ t, (r.itemData).isSome)
    (sid : String) (n : Nat) :
    parseAll ((rowsFor t sid).drop n)
      = Except.ok (payloads ((rowsFor t sid).drop n)) :=
  parseAll_of_all_some (fun r hr =>
    hparse r (List.mem_of_mem_filter (List.mem_of_mem_drop hr)))

theorem parseRowsFor {t : Table} (hparse : ∀ r ∈ t, (r.itemData).isSome)
    (sid : String) :
    parseAll (rowsFor t sid) = Except.ok (payloads (rowsFor t sid)) :=
  parseAll_of_all_some (fun r hr => hparse r (List.mem_of_mem_filter hr))

/-!
## Claim C1 — getItems limit semantics

The claim as frozen states that for EVERY adapter a limit k ≤ 0 yields the
empty sequence.  SQLiteSession guards its two query shapes with a JS
truthiness test (`limit ? windowed : full`), so getItems(0) runs the
unlimited query and returns the whole history, and a negative limit reaches
SQLite as a negative LIMIT, which is unbounded — also the whole history.
The remaining parts of the claim (no-limit, tail window for 0 < k < N,
k ≥ N) hold for all four adapters, and k ≤ 0 yields the empty sequence for
InMemorySession and DrizzleSession, and k = 0 for SequelizeSession.
-/

/-- C1 (counterexample): on a history of two items, SQLiteSession.getItems
with limit 0 returns both items, not the empty sequence the claim
requires. -/
theorem C1_limit_zero_cx :
    sqliteGetItems [⟨1, "s", some "a", 5⟩, ⟨2, "s", some "b", 5⟩] "s" (some 0)
        = Except.ok ["a", "b"]
    ∧ ¬ sqliteGetItems [⟨1, "s", some "a", 5⟩, ⟨2, "s", some "b", 5⟩] "s" (some 0)
        = Except.ok ([] : List Item) := by
  constructor
  · rfl
  · intro h
    have h2 : (["a", "b"] : List Item) = [] := Except.ok.inj h
    exact absurd h2 (by decide)

/-- C1 (amended): over any table with auto-increment ids, monotone
timestamps and parseable payloads — getItems with no limit returns the whole
per-session history oldest-first on every adapter; a limit k with 0 < k
returns the last min(k, N) stored items in chronological order on every
adapter; a limit k ≤ 0 returns the empty sequence on InMemorySession and
DrizzleSession and (for k = 0) on SequelizeSession, while SQLiteSession
treats k = 0 as no limit and passes k < 0 to SQLite's unbounded negative
LIMIT, returning the whole history in both cases. -/
theorem C1_getItems_amended (t : Table) (sid : String) (l : Int)
    (mem : List Item) (hid : idsStrictMono t) (hts : createdAtMono t)
    (hparse : ∀ r ∈ t, (r.itemData).isSome) :
    (inMemoryGetItems mem none = mem
      ∧ sqliteGetItems t sid none = Except.ok (payloads (rowsFor t sid))
      ∧ drizzleGetItems t sid none = payloads (rowsFor t sid)
      ∧ sequelizeGetItems t sid none = Except.ok (payloads (rowsFor t sid)))
    ∧ (l ≤ 0 →
        inMemoryGetItems mem (some l) = []
        ∧ drizzleGetItems t sid (some l) = []
        ∧ sqliteGetItems t sid (some l) = Except.ok (payloads (rowsFor t sid)))
    ∧ sequelizeGetItems t sid (some 0) = Except.ok []
    ∧ (0 < l →
        inMemoryGetItems mem (some l) = mem.drop (mem.length - l.toNat)
        ∧ sqliteGetItems t sid (some l)
            = Except.ok (payloads
                ((rowsFor t sid).drop ((rowsFor t sid).length - l.toNat)))
        ∧ drizzleGetItems t sid (some l)
            = payloads ((rowsFor t sid).drop ((rowsFor t sid).length - l.toNat))
        ∧ sequelizeGetItems t sid (some l)
            = Except.ok (payloads
                ((rowsFor t sid).drop ((rowsFor t sid).length - l.toNat)))) := by
  refine ⟨⟨rfl, ?_, ?_, ?_⟩, ?_, ?_, ?_⟩
  · rw [sqliteGetItems, sqliteGetRows_full hid sid (Or.inl rfl)]
    exact parseRowsFor hparse sid
  · rw [drizzleGetItems, drizzleGetRows_none hid hts sid]
  · rw [sequelizeGetItems, sequelizeGetRows_none hid sid]
    exact parseRowsFor hparse sid
  · intro hle
    refine ⟨inMemoryGetItems_nonpos mem hle, ?_, ?_⟩
    · rw [drizzleGetItems, drizzleGetRows_nonpos t sid hle]
      rfl
    · rw [sqliteGetItems, sqliteGetRows_full hid sid (Or.inr ⟨l, rfl, hle⟩)]
      exact parseRowsFor hparse sid
  · rw [sequelizeGetItems, sequelizeGetRows_zero t sid]
    rfl
  · intro hpos
    refine ⟨inMemoryGetItems_pos mem hpos, ?_, ?_, ?_⟩
    · rw [sqliteGetItems, sqliteGetRows_pos hid sid hpos]
      exact parseRowsFor_drop hparse sid _
    · rw [drizzleGetItems, drizzleGetRows_pos hid hts sid hpos]
    · rw [sequelizeGetItems, sequelizeGetRows_pos hid sid hpos]
      exact parseRowsFor_drop hparse sid _

/-- C1 (witness): the amended theorem applied to a concrete three-item
history and limit 2. -/
theorem C1_getItems_amended_witness :
    (idsStrictMono [⟨1, "s", some "a", 5⟩, ⟨2, "s", some "b", 5⟩, ⟨3, "s", some "c", 7⟩]
      ∧ createdAtMono [⟨1, "s", some "a", 5⟩, ⟨2, "s", some "b", 5⟩, ⟨3, "s", some "c", 7⟩]
      ∧ ∀ r ∈ ([⟨1, "s", some "a", 5⟩, ⟨2, "s", some "b", 5⟩, ⟨3, "s", some "c", 7⟩] : Table),
          (r.itemData).isSome)
    ∧ (0 < (2 : Int) →
        inMemoryGetItems ["x", "y", "z"] (some 2)
          = List.drop (["x", "y", "z"].length - (2 : Int).toNat) ["x", "y", "z"]
        ∧ sqliteGetItems [⟨1, "s", some "a", 5⟩, ⟨2, "s", some "b", 5⟩, ⟨3, "s", some "c", 7⟩] "s" (some 2)
            = Except.ok (payloads
                ((rowsFor [⟨1, "s", some "a", 5⟩, ⟨2, "s", some "b", 5⟩, ⟨3, "s", some "c", 7⟩] "s").drop
                  ((rowsFor [⟨1, "s", some "a", 5⟩, ⟨2, "s", some "b", 5⟩, ⟨3, "s", some "c", 7⟩] "s").length - (2 : Int).toNat)))
        ∧ drizzleGetItems [⟨1, "s", some "a", 5⟩, ⟨2, "s", some "b", 5⟩, ⟨3, "s", some "c", 7⟩] "s" (some 2)
            = payloads
                ((rowsFor [⟨1, "s", some "a", 5⟩, ⟨2, "s", some "b", 5⟩, ⟨3, "s", some "c", 7⟩] "s").drop
                  ((rowsFor [⟨1, "s", some "a", 5⟩, ⟨2, "s", some "b", 5⟩, ⟨3, "s", some "c", 7⟩] "s").length - (2 : Int).toNat))
        ∧ sequelizeGetItems [⟨1, "s", some "a", 5⟩, ⟨2, "s", some "b", 5⟩, ⟨3, "s", some "c", 7⟩] "s" (some 2)
            = Except.ok (payloads
                ((rowsFor [⟨1, "s", some "a", 5⟩, ⟨2, "s", some "b", 5⟩, ⟨3, "s", some "c", 7⟩] "s").drop
                  ((rowsFor [⟨1, "s", some "a", 5⟩, ⟨2, "s", some "b", 5⟩, ⟨3, "s", some "c", 7⟩] "s").length - (2 : Int).toNat)))) :=
  ⟨⟨by decide, by decide, by decide⟩,
   (C1_getItems_amended
      [⟨1, "s", some "a", 5⟩, ⟨2, "s", some "b", 5⟩, ⟨3, "s", some "c", 7⟩]
      "s" 2 ["x", "y", "z"] (by decide) (by decide) (by decide)).2.2.2⟩

/-!
## Pop lemmas
-/

theorem ids_injective :
    ∀ {t : Table}, idsStrictMono t →
      ∀ a ∈ t, ∀ b ∈ t, a.id = b.id → a = b := by
  intro t hid
  induction t with
  | nil =>
    intro a ha
    cases ha
  | cons x xs ih =>
    rw [idsStrictMono, List.pairwise_cons] at hid
    intro a ha b hb heq
    rcases List.mem_cons.mp ha with rfl | ha' <;>
      rcases List.mem_cons.mp hb with rfl | hb'
    · rfl
    · exact absurd heq (by have := hid.1 b hb'; omega)
    · exact absurd heq (by have := hid.1 a ha'; omega)
    · exact ih hid.2 a ha' b hb' heq

theorem rowsFor_deleteById (t : Table) (sid : String) (i : Nat) :
    rowsFor (deleteById t i) sid = (rowsFor t sid).filter (fun r => ¬ r.id = i) := by
  simp only [rowsFor, deleteById, List.filter_filter]
  apply List.filter_congr
  intro r _
  simp [Bool.and_comm]

theorem filter_ne_last_id {f0 : Table} {r : Row}
    (hpw : (f0 ++ [r]).Pairwise (fun a b => a.id < b.id)) :
    (f0 ++ [r]).filter (fun x => ¬ x.id = r.id) = f0 := by
  rw [List.filter_append]
  have h1 : f0.filter (fun x => ¬ x.id = r.id) = f0 := by
    rw [List.filter_eq_self]
    intro x hx
    have := (List.pairwise_append.mp hpw).2.2 x hx r (List.mem_singleton_self r)
    simp only [decide_eq_true_eq]
    omega
  have h2 : ([r] : Table).filter (fun x => ¬ x.id = r.id) = [] := by
    simp
  rw [h1, h2, List.append_nil]

theorem clearSession_deleteById {t : Table} (hid : idsStrictMono t)
    {r : Row} (hr : r ∈ t) {sid : String} (hsid : r.sessionId = sid) :
    clearSession (deleteById t r.id) sid = clearSession t sid := by
  simp only [clearSession, deleteById, List.filter_filter]
  apply List.filter_congr
  intro x hx
  by_cases hxs : x.sessionId = sid
  · simp [hxs]
  · have hxid : ¬ x.id = r.id := by
      intro h
      exact hxs (by rw [ids_injective hid x hx r hr h, hsid])
    simp [hxs, hxid]

theorem deleteById_sublist (t : Table) (i : Nat) :
    List.Sublist (deleteById t i) t :=
  List.filter_sublist t

theorem mem_rowsFor_sessionId {t : Table} {sid : String} {r : Row}
    (h : r ∈ rowsFor t sid) : r.sessionId = sid := by
  have := (List.mem_filter.mp h).2
  simpa using this

theorem payloads_append (l1 l2 : Table) :
    payloads (l1 ++ l2) = payloads l1 ++ payloads l2 := by
  simp [payloads]

/-- On a table whose session rows end with row r, SQLiteSession.popItem
deletes exactly r and returns its payload. -/
theorem sqlitePop_step {t : Table} (hid : idsStrictMono t) {sid : String}
    {f0 : Table} {r : Row} (hsplit : rowsFor t sid = f0 ++ [r])
    {v : Item} (hv : r.itemData = some v) :
    sqlitePop t sid = (deleteById t r.id, Except.ok (some v)) := by
  have hle := (idKey_pairwise (rowsFor_pairwise sid hid)).imp
    (fun h => le_of_lt (α := Nat) h)
  have hhead : (sortDescBy idKey (rowsFor t sid)).head? = some r := by
    rw [sortDescBy_of_sorted idKey hle, List.head?_reverse, hsplit,
      List.getLast?_concat]
  simp only [sqlitePop, hhead, hv]

theorem drizzlePop_step {t : Table} (hid : idsStrictMono t)
    (hts : createdAtMono t) {sid : String}
    {f0 : Table} {r : Row} (hsplit : rowsFor t sid = f0 ++ [r])
    {v : Item} (hv : r.itemData = some v) :
    drizzlePop t sid = (deleteById t r.id, Except.ok (some v)) := by
  have hle := (drizzleKey_pairwise (rowsFor_pairwise sid hid)
    (rowsFor_pairwise sid hts)).imp (fun h => le_of_lt h)
  have hhead : (sortDescBy drizzleKey (rowsFor t sid)).head? = some r := by
    rw [sortDescBy_of_sorted drizzleKey hle, List.head?_reverse, hsplit,
      List.getLast?_concat]
  simp only [drizzlePop, hhead, hv]

theorem sequelizePop_step {t : Table} (hid : idsStrictMono t) {sid : String}
    {f0 : Table} {r : Row} (hsplit : rowsFor t sid = f0 ++ [r])
    {v : Item} (hv : r.itemData = some v) :
    sequelizePop t sid = (deleteById t r.id, Except.ok (some v)) := by
  have hle := (idKey_pairwise (rowsFor_pairwise sid hid)).imp
    (fun h => le_of_lt (α := Nat) h)
  have hhead : (sortDescBy idKey (rowsFor t sid)).head? = some r := by
    rw [sortDescBy_of_sorted idKey hle, List.head?_reverse, hsplit,
      List.getLast?_concat]
  simp only [sequelizePop, hhead, hv]

theorem sqlitePop_empty {t : Table} {sid : String} (h : rowsFor t sid = []) :
    sqlitePop t sid = (t, Except.ok none) := by
  simp [sqlitePop, h, sortDescBy, sortAscBy, List.insertionSort]

theorem drizzlePop_empty {t : Table} {sid : String} (h : rowsFor t sid = []) :
    drizzlePop t sid = (t, Except.ok none) := by
  simp [drizzlePop, h, sortDescBy, sortAscBy, List.insertionSort]

theorem sequelizePop_empty {t : Table} {sid : String} (h : rowsFor t sid = []) :
    sequelizePop t sid = (t, Except.ok none) := by
  simp [sequelizePop, h, sortDescBy, sortAscBy, List.insertionSort]

/-- Iterated pops, for any adapter step that (on well-formed, parseable
tables) pops the last session row and answers `Except.ok none` on an empty
session: popping length + 1 times yields the payloads in reverse append
order, a final absent answer, and exactly the session's rows removed. -/
theorem popN_spec_of_step
    (step : Table → String → Table × Except String (Option Item))
    (hstep_empty : ∀ t sid, rowsFor t sid = [] → step t sid = (t, Except.ok none))
    (hstep_last : ∀ t sid f0 r v, idsStrictMono t → createdAtMono t →
      rowsFor t sid = f0 ++ [r] → r.itemData = some v →
      step t sid = (deleteById t r.id, Except.ok (some v))) :
    ∀ t sid, idsStrictMono t → createdAtMono t →
      (∀ r ∈ t, (r.itemData).isSome) →
      popNWith step ((rowsFor t sid).length + 1) t sid
        = (clearSession t sid,
           (payloads (rowsFor t sid)).reverse.map (fun v => Except.ok (some v))
             ++ [Except.ok none]) := by
  intro t sid
  generalize hn : (rowsFor t sid).length = n
  induction n generalizing t with
  | zero =>
    intro hid hts hparse
    have hempty : rowsFor t sid = [] := List.length_eq_zero.mp hn
    have hclear : clearSession t sid = t := by
      rw [clearSession, List.filter_eq_self]
      intro x hx
      have : ¬ x.sessionId = sid := by
        intro hxs
        have : x ∈ rowsFor t sid := List.mem_filter.mpr ⟨hx, by simp [hxs]⟩
        rw [hempty] at this
        cases this
      simpa using this
    simp [popNWith, hstep_empty t sid hempty, hempty, payloads, hclear]
  | succ n ih =>
    intro hid hts hparse
    have hne : rowsFor t sid ≠ [] := by
      intro h
      rw [h] at hn
      simp at hn
    obtain ⟨f0, r, hsplit⟩ : ∃ f0 r, rowsFor t sid = f0 ++ [r] :=
      ⟨(rowsFor t sid).dropLast, (rowsFor t sid).getLast hne,
        (List.dropLast_append_getLast hne).symm⟩
    have hrmemf : r ∈ rowsFor t sid := by
      rw [hsplit]
      exact List.mem_append_right _ (List.mem_singleton_self r)
    have hrmem : r ∈ t := List.mem_of_mem_filter hrmemf
    obtain ⟨v, hv⟩ := Option.isSome_iff_exists.mp (hparse r hrmem)
    have hstep := hstep_last t sid f0 r v hid hts hsplit hv
    have hid' : idsStrictMono (deleteById t r.id) :=
      List.Pairwise.sublist (deleteById_sublist t r.id) hid
    have hts' : createdAtMono (deleteById t r.id) :=
      List.Pairwise.sublist (deleteById_sublist t r.id) hts
    have hparse' : ∀ x ∈ deleteById t r.id, (x.itemData).isSome := fun x hx =>
      hparse x (List.mem_of_mem_filter hx)
    have hpw : (f0 ++ [r]).Pairwise (fun a b => a.id < b.id) := by
      rw [← hsplit]
      exact rowsFor_pairwise sid hid
    have hrows' : rowsFor (deleteById t r.id) sid = f0 := by
      rw [rowsFor_deleteById, hsplit]
      exact filter_ne_last_id hpw
    have hlen' : (rowsFor (deleteById t r.id) sid).length = n := by
      rw [hrows']
      have h1 : (rowsFor t sid).length = n + 1 := hn
      rw [hsplit, List.length_append, List.length_singleton] at h1
      omega
    have hihres := ih (deleteById t r.id) hlen' hid' hts' hparse'
    have hclear' : clearSession (deleteById t r.id) sid = clearSession t sid :=
      clearSession_deleteById hid hrmem (mem_rowsFor_sessionId hrmemf)
    have hpay : payloads (rowsFor t sid) = payloads f0 ++ [v] := by
      rw [hsplit, payloads_append]
      simp [payloads, hv]
    rw [hrows'] at hihres
    calc popNWith step (n + 1 + 1) t sid
        = ((popNWith step (n + 1) (deleteById t r.id) sid).1,
            Except.ok (some v) :: (popNWith step (n + 1) (deleteById t r.id) sid).2) := by
          simp [popNWith, hstep]
      _ = (clearSession t sid,
            (payloads (rowsFor t sid)).reverse.map (fun v => Except.ok (some v))
              ++ [Except.ok none]) := by
          rw [hihres, hclear', hpay]
          simp

theorem inMemoryPopN_spec (items : List Item) :
    inMemoryPopN (items.length + 1) items = ([], items.reverse.map some ++ [none]) := by
  generalize hn : items.length = n
  induction n generalizing items with
  | zero =>
    have : items = [] := List.length_eq_zero.mp hn
    subst this
    rfl
  | succ n ih =>
    have hne : items ≠ [] := by
      intro h
      rw [h] at hn
      simp at hn
    obtain ⟨init, a, hsplit⟩ : ∃ init a, items = init ++ [a] :=
      ⟨items.dropLast, items.getLast hne, (List.dropLast_append_getLast hne).symm⟩
    have hpop : inMemoryPop items = (init, some a) := by
      rw [hsplit, inMemoryPop, List.dropLast_concat, List.getLast?_concat]
    have hlen : init.length = n := by
      rw [hsplit, List.length_append, List.length_singleton] at hn
      omega
    calc inMemoryPopN (n + 1 + 1) items
        = ((inMemoryPopN (n + 1) init).1, some a :: (inMemoryPopN (n + 1) init).2) := by
          simp [inMemoryPopN, hpop]
      _ = ([], items.reverse.map some ++ [none]) := by
          rw [ih init hlen, hsplit]
          simp

/-!
## Claim C2 — popItem is LIFO with a safe absent case
-/

/-- C2: on every adapter, popping (number of stored items) + 1 times returns
the session's items in reverse append order followed by the absent value,
each successful pop removing exactly the row it returns: the final state
keeps precisely the rows of other sessions (for InMemorySession, the final
state is the empty sequence).  The absent answer is an ordinary result, not
a failure, and the final pop leaves the state unchanged. -/
theorem C2_pop_lifo (t : Table) (sid : String) (mem : List Item)
    (hid : idsStrictMono t) (hts : createdAtMono t)
    (hparse : ∀ r ∈ t, (r.itemData).isSome) :
    inMemoryPopN (mem.length + 1) mem = ([], mem.reverse.map some ++ [none])
    ∧ popNWith sqlitePop ((rowsFor t sid).length + 1) t sid
        = (clearSession t sid,
           (payloads (rowsFor t sid)).reverse.map (fun v => Except.ok (some v))
             ++ [Except.ok none])
    ∧ popNWith drizzlePop ((rowsFor t sid).length + 1) t sid
        = (clearSession t sid,
           (payloads (rowsFor t sid)).reverse.map (fun v => Except.ok (some v))
             ++ [Except.ok none])
    ∧ popNWith sequelizePop ((rowsFor t sid).length + 1) t sid
        = (clearSession t sid,
           (payloads (rowsFor t sid)).reverse.map (fun v => Except.ok (some v))
             ++ [Except.ok none]) := by
  refine ⟨inMemoryPopN_spec mem, ?_, ?_, ?_⟩
  · exact popN_spec_of_step sqlitePop
      (fun t sid h => sqlitePop_empty h)
      (fun t sid f0 r v hid hts hsplit hv => sqlitePop_step hid hsplit hv)
      t sid hid hts hparse
  · exact popN_spec_of_step drizzlePop
      (fun t sid h => drizzlePop_empty h)
      (fun t sid f0 r v hid hts hsplit hv => drizzlePop_step hid hts hsplit hv)
      t sid hid hts hparse
  · exact popN_spec_of_step sequelizePop
      (fun t sid h => sequelizePop_empty h)
      (fun t sid f0 r v hid hts hsplit hv => sequelizePop_step hid hsplit hv)
      t sid hid hts hparse

/-- C2 (witness): the LIFO pop theorem applied to a concrete two-item
history. -/
theorem C2_pop_lifo_witness :
    (idsStrictMono [⟨1, "s", some "a", 5⟩, ⟨2, "s", some "b", 6⟩]
      ∧ createdAtMono [⟨1, "s", some "a", 5⟩, ⟨2, "s", some "b", 6⟩]
      ∧ ∀ r ∈ ([⟨1, "s", some "a", 5⟩, ⟨2, "s", some "b", 6⟩] : Table),
          (r.itemData).isSome)
    ∧ popNWith sqlitePop
        ((rowsFor [⟨1, "s", some "a", 5⟩, ⟨2, "s", some "b", 6⟩] "s").length + 1)
        [⟨1, "s", some "a", 5⟩, ⟨2, "s", some "b", 6⟩] "s"
        = (clearSession [⟨1, "s", some "a", 5⟩, ⟨2, "s", some "b", 6⟩] "s",
           (payloads (rowsFor [⟨1, "s", some "a", 5⟩, ⟨2, "s", some "b", 6⟩] "s")).reverse.map
              (fun v => Except.ok (some v)) ++ [Except.ok none]) :=
  ⟨⟨by decide, by decide, by decide⟩,
   (C2_pop_lifo [⟨1, "s", some "a", 5⟩, ⟨2, "s", some "b", 6⟩] "s" []
      (by decide) (by decide) (by decide)).2.1⟩

/-!
## Claim C4 — session isolation
-/

theorem mem_sortAscBy {κ : Type} [LinearOrder κ] {key : Row → κ}
    {rows : Table} {x : Row} (h : x ∈ sortAscBy key rows) : x ∈ rows :=
  (List.perm_insertionSort (keyle key) rows).subset h

theorem mem_sortDescBy {κ : Type} [LinearOrder κ] {key : Row → κ}
    {rows : Table} {x : Row} (h : x ∈ sortDescBy key rows) : x ∈ rows :=
  mem_sortAscBy (List.mem_reverse.mp h)

theorem mem_sqlLimit {l : Int} {rows : Table} {x : Row}
    (h : x ∈ sqlLimit l rows) : x ∈ rows := by
  rw [sqlLimit] at h
  split at h
  · exact h
  · exact List.mem_of_mem_take h

theorem sqliteGetRows_subset {t : Table} {sid : String} {l? : Option Int}
    {r : Row} (h : r ∈ sqliteGetRows t sid l?) : r ∈ rowsFor t sid := by
  cases l? with
  | none => exact mem_sortAscBy h
  | some l =>
    rw [sqliteGetRows] at h
    split at h
    · exact mem_sortAscBy h
    · exact mem_sortDescBy (mem_sqlLimit (mem_sortAscBy h))

theorem drizzleGetRows_subset {t : Table} {sid : String} {l? : Option Int}
    {r : Row} (h : r ∈ drizzleGetRows t sid l?) : r ∈ rowsFor t sid := by
  cases l? with
  | none => exact mem_sortAscBy h
  | some l =>
    rw [drizzleGetRows] at h
    split at h
    · cases h
    · exact mem_sortDescBy (List.mem_of_mem_take (mem_sortAscBy h))

theorem sequelizeGetRows_subset {t : Table} {sid : String} {l? : Option Int}
    {r : Row} (h : r ∈ sequelizeGetRows t sid l?) : r ∈ rowsFor t sid := by
  cases l? with
  | none => exact mem_sortAscBy h
  | some l =>
    rw [sequelizeGetRows] at h
    split at h
    · exact mem_sortAscBy (mem_sqlLimit h)
    · exact mem_sortAscBy (List.mem_of_mem_drop (mem_sqlLimit h))

theorem popSelect_cases {κ : Type} [LinearOrder κ] (key : Row → κ)
    (t : Table) (sid : String) :
    (sortDescBy key (rowsFor t sid)).head? = none ∨
    ∃ row, (sortDescBy key (rowsFor t sid)).head? = some row
      ∧ row ∈ rowsFor t sid := by
  cases h : (sortDescBy key (rowsFor t sid)).head? with
  | none => exact Or.inl rfl
  | some row =>
    exact Or.inr ⟨row, rfl, mem_sortDescBy (List.mem_of_mem_head? h)⟩

theorem rowsFor_deleteById_other {t : Table} (hid : idsStrictMono t)
    {row : Row} (hrow : row ∈ t) {A B : String} (hrowB : row.sessionId = B)
    (hAB : ¬ A = B) :
    rowsFor (deleteById t row.id) A = rowsFor t A := by
  rw [rowsFor_deleteById]
  apply List.filter_eq_self.mpr
  intro x hx
  have hxA : x.sessionId = A := mem_rowsFor_sessionId hx
  have hne : ¬ x.id = row.id := by
    intro h
    have hxr := ids_injective hid x (List.mem_of_mem_filter hx) row hrow h
    rw [hxr, hrowB] at hxA
    exact hAB hxA.symm
  simpa using hne

/-- C4: operations scoped to session key B touch only B's rows, even when
the same table also stores rows of a different session key A: getItems
returns only B rows, popItem deletes (and returns payloads of) only B rows
and leaves A's rows exactly as they were, and clearSession for B leaves A's
rows exactly as they were.  Proved for SQLiteSession, DrizzleSession and
SequelizeSession over the same shared table. -/
theorem C4_session_isolation (t : Table) (A B : String) (l? : Option Int)
    (hAB : ¬ A = B) (hid : idsStrictMono t) :
    (∀ r ∈ sqliteGetRows t B l?, r.sessionId = B)
    ∧ (∀ r ∈ drizzleGetRows t B l?, r.sessionId = B)
    ∧ (∀ r ∈ sequelizeGetRows t B l?, r.sessionId = B)
    ∧ (∀ v, (sqlitePop t B).2 = Except.ok (some v) →
        ∃ r ∈ rowsFor t B, r.itemData = some v)
    ∧ (∀ v, (drizzlePop t B).2 = Except.ok (some v) →
        ∃ r ∈ rowsFor t B, r.itemData = some v)
    ∧ (∀ v, (sequelizePop t B).2 = Except.ok (some v) →
        ∃ r ∈ rowsFor t B, r.itemData = some v)
    ∧ rowsFor ((sqlitePop t B).1) A = rowsFor t A
    ∧ rowsFor ((drizzlePop t B).1) A = rowsFor t A
    ∧ rowsFor ((sequelizePop t B).1) A = rowsFor t A
    ∧ rowsFor (clearSession t B) A = rowsFor t A := by
  refine ⟨?_, ?_, ?_, ?_, ?_, ?_, ?_, ?_, ?_, ?_⟩
  · exact fun r hr => mem_rowsFor_sessionId (sqliteGetRows_subset hr)
  · exact fun r hr => mem_rowsFor_sessionId (drizzleGetRows_subset hr)
  · exact fun r hr => mem_rowsFor_sessionId (sequelizeGetRows_subset hr)
  · intro v hv
    rcases popSelect_cases idKey t B with h | ⟨row, h, hmem⟩
    · simp [sqlitePop, h] at hv
    · simp only [sqlitePop, h] at hv
      cases hrow : row.itemData with
      | none => simp [hrow] at hv
      | some w =>
        simp [hrow] at hv
        exact ⟨row, hmem, by rw [hrow, hv]⟩
  · intro v hv
    rcases popSelect_cases drizzleKey t B with h | ⟨row, h, hmem⟩
    · simp [drizzlePop, h] at hv
    · simp only [drizzlePop, h] at hv
      cases hrow : row.itemData with
      | none => simp [hrow] at hv
      | some w =>
        simp [hrow] at hv
        exact ⟨row, hmem, by rw [hrow, hv]⟩
  · intro v hv
    rcases popSelect_cases idKey t B with h | ⟨row, h, hmem⟩
    · simp [sequelizePop, h] at hv
    · simp only [sequelizePop, h] at hv
      cases hrow : row.itemData with
      | none => simp [hrow] at hv
      | some w =>
        simp [hrow] at hv
        exact ⟨row, hmem, by rw [hrow, hv]⟩
  · rcases popSelect_cases idKey t B with h | ⟨row, h, hmem⟩
    · simp [sqlitePop, h]
    · simp only [sqlitePop, h]
      exact rowsFor_deleteById_other hid (List.mem_of_mem_filter hmem)
        (mem_rowsFor_sessionId hmem) hAB
  · rcases popSelect_cases drizzleKey t B with h | ⟨row, h, hmem⟩
    · simp [drizzlePop, h]
    · simp only [drizzlePop, h]
      exact rowsFor_deleteById_other hid (List.mem_of_mem_filter hmem)
        (mem_rowsFor_sessionId hmem) hAB
  · rcases popSelect_cases idKey t B with h | ⟨row, h, hmem⟩
    · simp [sequelizePop, h]
    · simp only [sequelizePop, h]
      cases hrow : row.itemData with
      | none => simp [hrow]
      | some w =>
        simp only [hrow]
        exact rowsFor_deleteById_other hid (List.mem_of_mem_filter hmem)
          (mem_rowsFor_sessionId hmem) hAB
  · rw [rowsFor, clearSession, List.filter_filter]
    apply List.filter_congr
    intro x hx
    by_cases hxA : x.sessionId = A
    · simp [hxA]
      exact hAB
    · simp [hxA]

/-- C4 (witness): isolation applied to a concrete table holding rows of two
sessions. -/
theorem C4_session_isolation_witness :
    (¬ "a_key" = "b_key"
      ∧ idsStrictMono [⟨1, "a_key", some "x", 5⟩, ⟨2, "b_key", some "y", 6⟩])
    ∧ rowsFor ((sqlitePop [⟨1, "a_key", some "x", 5⟩, ⟨2, "b_key", some "y", 6⟩] "b_key").1) "a_key"
        = rowsFor [⟨1, "a_key", some "x", 5⟩, ⟨2, "b_key", some "y", 6⟩] "a_key" :=
  ⟨⟨by decide, by decide⟩,
   (C4_session_isolation [⟨1, "a_key", some "x", 5⟩, ⟨2, "b_key", some "y", 6⟩]
      "a_key" "b_key" none (by decide) (by decide)).2.2.2.2.2.2.1⟩

/-!
## Claim C5 — deserialization failures

The claim says every durable adapter logs-and-excludes (getItems) or
logs-and-returns-absent (popItem) on a payload that fails JSON.parse.  Only
DrizzleSession does: its parseItems filters unparseable rows out and its
popItem catches the parse failure.  SQLiteSession applies JSON.parse bare in
both getItems and popItem (the latter after already deleting the row), and
SequelizeSession applies it bare in getItems and in popItem before
row.destroy(), so in those adapters the parse failure propagates and the
call rejects.
-/

theorem popSelect_last_id {t : Table} (hid : idsStrictMono t) {sid : String}
    {f0 : Table} {r : Row} (hsplit : rowsFor t sid = f0 ++ [r]) :
    (sortDescBy idKey (rowsFor t sid)).head? = some r := by
  have hle := (idKey_pairwise (rowsFor_pairwise sid hid)).imp
    (fun h => le_of_lt (α := Nat) h)
  rw [sortDescBy_of_sorted idKey hle, List.head?_reverse, hsplit,
    List.getLast?_concat]

theorem popSelect_last_drizzle {t : Table} (hid : idsStrictMono t)
    (hts : createdAtMono t) {sid : String}
    {f0 : Table} {r : Row} (hsplit : rowsFor t sid = f0 ++ [r]) :
    (sortDescBy drizzleKey (rowsFor t sid)).head? = some r := by
  have hle := (drizzleKey_pairwise (rowsFor_pairwise sid hid)
    (rowsFor_pairwise sid hts)).imp (fun h => le_of_lt h)
  rw [sortDescBy_of_sorted drizzleKey hle, List.head?_reverse, hsplit,
    List.getLast?_concat]

theorem parseAll_append_bad {g1 : Table} (hg : ∀ r ∈ g1, (r.itemData).isSome)
    {bad : Row} (hbad : bad.itemData = none) (g2 : Table) :
    parseAll (g1 ++ bad :: g2) = Except.error parseErrMsg := by
  induction g1 with
  | nil => simp [parseAll, hbad]
  | cons r rest ih =>
    obtain ⟨v, hv⟩ := Option.isSome_iff_exists.mp (hg r (List.mem_cons_self r rest))
    have := ih (fun x hx => hg x (List.mem_cons_of_mem r hx))
    simp [parseAll, hv, this]

/-- C5 (counterexample): on a stored payload that fails to parse,
SQLiteSession.getItems rejects with the parse failure instead of excluding
the row and returning the remaining (empty) sequence. -/
theorem C5_parse_propagation_cx :
    sqliteGetItems [⟨1, "s", none, 5⟩] "s" none = Except.error parseErrMsg
    ∧ ¬ sqliteGetItems [⟨1, "s", none, 5⟩] "s" none
        = Except.ok ([] : List Item) := by
  constructor
  · rfl
  · intro h
    have h2 : (Except.error parseErrMsg : Except String (List Item))
        = Except.ok [] := h
    exact Except.noConfusion h2

/-- C5 (amended): when the newest stored row of a session fails JSON.parse
(and the rows before it parse), DrizzleSession.getItems excludes the bad row
and returns the remaining payloads, and DrizzleSession.popItem deletes the
bad row and returns the absent value, neither propagating a failure; but
SQLiteSession.getItems and SequelizeSession.getItems reject with the parse
failure, SQLiteSession.popItem rejects after having already deleted the row,
and SequelizeSession.popItem rejects leaving the table unchanged. -/
theorem C5_parse_failures_amended (t : Table) (sid : String) (g1 : Table)
    (bad : Row) (hid : idsStrictMono t) (hts : createdAtMono t)
    (hsplit : rowsFor t sid = g1 ++ [bad]) (hbad : bad.itemData = none)
    (hg : ∀ r ∈ g1, (r.itemData).isSome) :
    drizzleGetItems t sid none = payloads g1
    ∧ drizzlePop t sid = (deleteById t bad.id, Except.ok none)
    ∧ sqliteGetItems t sid none = Except.error parseErrMsg
    ∧ sqlitePop t sid = (deleteById t bad.id, Except.error parseErrMsg)
    ∧ sequelizeGetItems t sid none = Except.error parseErrMsg
    ∧ sequelizePop t sid = (t, Except.error parseErrMsg) := by
  refine ⟨?_, ?_, ?_, ?_, ?_, ?_⟩
  · rw [drizzleGetItems, drizzleGetRows_none hid hts sid, hsplit,
      payloads_append]
    simp [payloads, hbad]
  · have hhead := popSelect_last_drizzle hid hts hsplit
    simp only [drizzlePop, hhead, hbad]
  · rw [sqliteGetItems, sqliteGetRows_full hid sid (Or.inl rfl), hsplit]
    exact parseAll_append_bad hg hbad []
  · have hhead := popSelect_last_id hid hsplit
    simp only [sqlitePop, hhead, hbad]
  · rw [sequelizeGetItems, sequelizeGetRows_none hid sid, hsplit]
    exact parseAll_append_bad hg hbad []
  · have hhead := popSelect_last_id hid hsplit
    simp only [sequelizePop, hhead, hbad]

/-- C5 (witness): the amended theorem applied to a table whose newest "s"
row holds an unparseable payload. -/
theorem C5_parse_failures_amended_witness :
    (idsStrictMono [⟨1, "s", some "a", 5⟩, ⟨2, "s", none, 6⟩]
      ∧ createdAtMono [⟨1, "s", some "a", 5⟩, ⟨2, "s", none, 6⟩]
      ∧ rowsFor [⟨1, "s", some "a", 5⟩, ⟨2, "s", none, 6⟩] "s"
          = [⟨1, "s", some "a", 5⟩] ++ [⟨2, "s", none, 6⟩]
      ∧ (⟨2, "s", none, 6⟩ : Row).itemData = none
      ∧ ∀ r ∈ ([⟨1, "s", some "a", 5⟩] : Table), (r.itemData).isSome)
    ∧ drizzleGetItems [⟨1, "s", some "a", 5⟩, ⟨2, "s", none, 6⟩] "s" none
        = payloads [⟨1, "s", some "a", 5⟩] :=
  ⟨⟨by decide, by decide, by decide, by decide, by decide⟩,
   (C5_parse_failures_amended [⟨1, "s", some "a", 5⟩, ⟨2, "s", none, 6⟩] "s"
      [⟨1, "s", some "a", 5⟩] ⟨2, "s", none, 6⟩
      (by decide) (by decide) (by decide) (by decide) (by decide)).1⟩

/-!
## Claim C10 — one created_at per addItems batch
-/

theorem batchRows_mem :
    ∀ (items : List Item) (startId : Nat) (sid : String) (now : Nat)
      (r : Row), r ∈ batchRows startId sid now items →
        r.createdAt = now ∧ r.sessionId = sid ∧ startId ≤ r.id := by
  intro items
  induction items with
  | nil =>
    intro startId sid now r hr
    cases hr
  | cons v vs ih =>
    intro startId sid now r hr
    rcases List.mem_cons.mp hr with rfl | hr'
    · exact ⟨rfl, rfl, Nat.le_refl _⟩
    · obtain ⟨h1, h2, h3⟩ := ih (startId + 1) sid now r hr'
      exact ⟨h1, h2, by omega⟩

theorem batchRows_map_itemData (items : List Item) (startId : Nat)
    (sid : String) (now : Nat) :
    (batchRows startId sid now items).map (fun r => r.itemData)
      = items.map some := by
  induction items generalizing startId with
  | nil => rfl
  | cons v vs ih => simp [batchRows, ih]

theorem batchRows_ids_strictMono (items : List Item) (startId : Nat)
    (sid : String) (now : Nat) :
    (batchRows startId sid now items).Pairwise (fun a b => a.id < b.id) := by
  induction items generalizing startId with
  | nil => exact List.Pairwise.nil
  | cons v vs ih =>
    rw [batchRows, List.pairwise_cons]
    constructor
    · intro r hr
      have := (batchRows_mem vs (startId + 1) sid now r hr).2.2
      simp only []
      omega
    · exact ih (startId + 1)

/-- C10: one SQLiteSession.addItems call appends its items as rows carrying
one and the same created_at value (Date.now() is read once per batch), with
strictly increasing ids in item order; so within a batch the relative order
is carried solely by the id column and is invisible to any ordering by
created_at alone. -/
theorem C10_batch_single_timestamp (t : Table) (sid : String) (now : Nat)
    (items : List Item) :
    sqliteAddItems t sid now items = t ++ batchRows (nextId t) sid now items
    ∧ (∀ r ∈ batchRows (nextId t) sid now items,
        r.createdAt = now ∧ r.sessionId = sid)
    ∧ (batchRows (nextId t) sid now items).map (fun r => r.itemData)
        = items.map some
    ∧ (batchRows (nextId t) sid now items).Pairwise (fun a b => a.id < b.id) :=
  ⟨sqliteAddItems_eq_batch t sid now items,
   fun r hr =>
     ⟨(batchRows_mem items (nextId t) sid now r hr).1,
      (batchRows_mem items (nextId t) sid now r hr).2.1⟩,
   batchRows_map_itemData items (nextId t) sid now,
   batchRows_ids_strictMono items (nextId t) sid now⟩

/-!
## Claim C3 — addItems atomicity and its mechanism

The write path of each durable adapter is embedded as the sequence of SQL
statements one addItems call issues.  Each top-level statement is atomic on
its own (single-statement atomicity of the engines), and a transaction is
atomic as a whole; a failing call is one that stops after some prefix of the
top-level statements.
-/

/-- A primitive SQL statement issued by an addItems implementation. -/
inductive SqlOp where
  | selectSession (sid : String)
  | insertSession (sid : String)
  | insertMessage (sid : String) (payload : Item)
  | insertMessages (sid : String) (batch : List Item)
  | updateSessionTime (sid : String)
deriving Repr, DecidableEq

/-- A top-level unit of execution: one auto-committed statement, or one
explicit transaction. -/
inductive SqlStmt where
  | op (o : SqlOp)
  | txn (body : List SqlOp)
deriving Repr, DecidableEq

/-- The messages a primitive statement durably appends for session sid. -/
def opMessages (sid : String) : SqlOp → List Item
  | SqlOp.insertMessage sid' v => if sid' = sid then [v] else []
  | SqlOp.insertMessages sid' vs => if sid' = sid then vs else []
  | _ => []

/-- The messages a top-level unit durably appends for session sid. -/
def stmtMessages (sid : String) : SqlStmt → List Item
  | SqlStmt.op o => opMessages sid o
  | SqlStmt.txn body => (body.map (opMessages sid)).flatten

/-- The messages a (partial) plan durably appends for session sid. -/
def planMessages (sid : String) (plan : List SqlStmt) : List Item :=
  (plan.map (stmtMessages sid)).flatten

/-- SQLiteSession.addItems: early-returns on an empty batch, otherwise runs
the per-item INSERTs inside one better-sqlite3 transaction. -/
def sqliteSessionAddPlan (sid : String) (items : List Item) : List SqlStmt :=
  if items.isEmpty then []
  else [SqlStmt.txn (items.map (fun v => SqlOp.insertMessage sid v))]

/-- DrizzleSession.addItems (addSqliteItems, addPgItems and addMysqlItems
issue the same sequence): select the session row, insert it when absent, one
multi-row INSERT of the whole batch, then update the session timestamp —
separate auto-committed statements with no surrounding transaction. -/
def drizzleAddPlan (sid : String) (sessionExists : Bool) (items : List Item) :
    List SqlStmt :=
  if items.isEmpty then []
  else [SqlStmt.op (SqlOp.selectSession sid)]
    ++ (if sessionExists then [] else [SqlStmt.op (SqlOp.insertSession sid)])
    ++ [SqlStmt.op (SqlOp.insertMessages sid items),
        SqlStmt.op (SqlOp.updateSessionTime sid)]

/-- SequelizeSession.addItems: early-returns on an empty batch, otherwise a
single bulkCreate, i.e. one multi-row INSERT with no transaction. -/
def sequelizeAddPlan (sid : String) (items : List Item) : List SqlStmt :=
  if items.isEmpty then []
  else [SqlStmt.op (SqlOp.insertMessages sid items)]

/-- Whether a call is implemented as exactly one explicit transaction. -/
def isSingleTxn : List SqlStmt → Bool
  | [SqlStmt.txn _] => true
  | _ => false

theorem flatten_insertMessage (sid : String) (items : List Item) :
    ((items.map (fun v => SqlOp.insertMessage sid v)).map
      (opMessages sid)).flatten = items := by
  rw [List.map_map]
  induction items with
  | nil => rfl
  | cons v vs ih => simp [Function.comp, opMessages, ih]

/-- C3 (counterexample): DrizzleSession.addItems (here its postgres variant
addPgItems, with the session row absent and a one-item batch) is not
implemented as a single transaction per call — its plan is four separate
statements with no transaction. -/
theorem C3_no_transaction_cx :
    isSingleTxn (drizzleAddPlan "s" false ["m1"]) = false
    ∧ drizzleAddPlan "s" false ["m1"]
        = [SqlStmt.op (SqlOp.selectSession "s"),
           SqlStmt.op (SqlOp.insertSession "s"),
           SqlStmt.op (SqlOp.insertMessages "s" ["m1"]),
           SqlStmt.op (SqlOp.updateSessionTime "s")] := by
  constructor
  · rfl
  · rfl

/-- C3 (amended): every addItems call with a non-empty batch is
all-or-nothing for the batch — any failing call leaves either none or all of
the batch's messages persisted, never a strict non-empty prefix — because
SQLiteSession wraps its per-item inserts in one transaction while
DrizzleSession and SequelizeSession append the whole batch with one
multi-row INSERT statement; but only SQLiteSession is implemented as a
single transaction per call: the Drizzle plan is four separate statements
(so a failing Drizzle call may still have created the session row), and the
Sequelize plan is a single plain statement. -/
theorem C3_addItems_atomicity_amended (sid : String) (items : List Item)
    (sessionExists : Bool) (k : Nat) (hne : ¬ items = []) :
    (planMessages sid ((sqliteSessionAddPlan sid items).take k) = []
      ∨ planMessages sid ((sqliteSessionAddPlan sid items).take k) = items)
    ∧ (planMessages sid ((drizzleAddPlan sid sessionExists items).take k) = []
      ∨ planMessages sid ((drizzleAddPlan sid sessionExists items).take k) = items)
    ∧ (planMessages sid ((sequelizeAddPlan sid items).take k) = []
      ∨ planMessages sid ((sequelizeAddPlan sid items).take k) = items)
    ∧ isSingleTxn (sqliteSessionAddPlan sid items) = true
    ∧ isSingleTxn (drizzleAddPlan sid sessionExists items) = false
    ∧ isSingleTxn (sequelizeAddPlan sid items) = false := by
  have hempty : items.isEmpty = false := by
    cases items with
    | nil => exact absurd rfl hne
    | cons v vs => rfl
  refine ⟨?_, ?_, ?_, ?_, ?_, ?_⟩
  · cases k with
    | zero => exact Or.inl rfl
    | succ k =>
      right
      have hplan : (sqliteSessionAddPlan sid items).take (k + 1)
          = [SqlStmt.txn (items.map (fun v => SqlOp.insertMessage sid v))] := by
        simp [sqliteSessionAddPlan, hempty]
      rw [hplan, planMessages]
      simp only [List.map_cons, List.map_nil, List.flatten_cons,
        List.flatten_nil, List.append_nil, stmtMessages]
      exact flatten_insertMessage sid items
  · cases sessionExists with
    | false =>
      match k with
      | 0 => exact Or.inl rfl
      | 1 =>
        left
        simp [drizzleAddPlan, hempty, planMessages, stmtMessages, opMessages]
      | 2 =>
        left
        simp [drizzleAddPlan, hempty, planMessages, stmtMessages, opMessages]
      | (n + 3) =>
        right
        simp [drizzleAddPlan, hempty, planMessages, stmtMessages, opMessages]
        intro l hl
        exact List.mem_singleton.mp (List.mem_of_mem_take hl)
    | true =>
      match k with
      | 0 => exact Or.inl rfl
      | 1 =>
        left
        simp [drizzleAddPlan, hempty, planMessages, stmtMessages, opMessages]
      | (n + 2) =>
        right
        simp [drizzleAddPlan, hempty, planMessages, stmtMessages, opMessages]
        intro l hl
        exact List.mem_singleton.mp (List.mem_of_mem_take hl)
  · cases k with
    | zero => exact Or.inl rfl
    | succ k =>
      right
      simp [sequelizeAddPlan, hempty, planMessages, stmtMessages, opMessages]
  · simp [sqliteSessionAddPlan, hempty, isSingleTxn]
  · cases sessionExists <;>
      simp [drizzleAddPlan, hempty, isSingleTxn]
  · simp [sequelizeAddPlan, hempty, isSingleTxn]

/-- C3 (witness): the amended atomicity theorem applied to a concrete
two-item batch interrupted after its second statement. -/
theorem C3_addItems_atomicity_amended_witness :
    (¬ (["m1", "m2"] : List Item) = [])
    ∧ ((planMessages "s" ((drizzleAddPlan "s" false ["m1", "m2"]).take 2) = []
        ∨ planMessages "s" ((drizzleAddPlan "s" false ["m1", "m2"]).take 2)
            = ["m1", "m2"])
      ∧ isSingleTxn (drizzleAddPlan "s" false ["m1", "m2"]) = false) :=
  ⟨by decide,
   ⟨(C3_addItems_atomicity_amended "s" ["m1", "m2"] false 2 (by decide)).2.1,
    (C3_addItems_atomicity_amended "s" ["m1", "m2"] false 2 (by decide)).2.2.2.2.1⟩⟩

/-!
## Claims C6 and C7 — construction, retry and provisioning

DrizzleSession.fromUrl dispatches on the URL scheme.  The server-backed
variants (createPostgresSession, createMysqlSession) open a pool and then
run a while-loop of at most maxRetries attempts; one attempt builds the
drizzle handle and, when createTables is set, runs ensureTables.  A failed
attempt increments the counter; when the counter reaches maxRetries the pool
is released (best-effort) and an error naming the attempt count and the last
cause is thrown, otherwise the loop sleeps for the fixed retryDelay and
tries again.  The embedded variant (createSqliteSession) has no loop: any
failure is immediately rethrown wrapped as "Failed to create SQLite
session: <cause>".  The loop is embedded below with an explicit fuel equal
to the remaining permitted attempts.
-/

/-- The outcome of one construction attempt: success, a failure before
ensureTables runs (connection/handle), or a failure inside ensureTables
(schema provisioning). -/
inductive AttemptOutcome where
  | success
  | failConnect (cause : String)
  | failProvision (cause : String)
deriving Repr, DecidableEq

def outcomeCause : AttemptOutcome → Option String
  | AttemptOutcome.success => none
  | AttemptOutcome.failConnect c => some c
  | AttemptOutcome.failProvision c => some c

/-- How often ensureTables ran during one attempt: once whenever the attempt
reached it (createTables set and no earlier connect failure). -/
def tablesRan (createTables : Bool) : AttemptOutcome → Nat
  | AttemptOutcome.success => if createTables then 1 else 0
  | AttemptOutcome.failConnect _ => 0
  | AttemptOutcome.failProvision _ => if createTables then 1 else 0

/-- Observable result of a construction: the error message surfaced (none on
success), how many attempts ran, the total fixed-delay sleep time, whether
the pool was released by the failure path, and how often the provisioning
statements ran. -/
structure CreateOutcome where
  errMsg : Option String
  attemptsMade : Nat
  sleptMs : Nat
  poolReleased : Bool
  ensureTablesCalls : Nat
deriving Repr, DecidableEq

/-- The error thrown when the retry budget is exhausted: it interpolates the
configured attempt count and the last cause. -/
def serverExhaustMsg (engine : String) (maxRetries : Nat) (cause : String) :
    String :=
  "Failed to create " ++ engine ++ " session after " ++ toString maxRetries
    ++ " attempts: " ++ cause

/-- The unreachable fall-through throw after the while-loop (hit only when
maxRetries = 0, in which case no attempt runs and no pool is released). -/
def serverNoLoopMsg (engine : String) : String :=
  "Failed to create " ++ engine ++ " session"

/-- The while (retries < maxRetries) loop of createPostgresSession and
createMysqlSession; fuel = maxRetries - retries is the number of loop
iterations still permitted.  A successful attempt returns the session; a
failed attempt either exhausts the budget (release the pool, throw the
attempt-count message) or sleeps the fixed retryDelay and retries. -/
def serverCreateLoop (engine : String) (attempt : Nat → AttemptOutcome)
    (createTables : Bool) (maxRetries retryDelay : Nat) :
    Nat → Nat → CreateOutcome
  | _, 0 =>
    { errMsg := some (serverNoLoopMsg engine), attemptsMade := 0,
      sleptMs := 0, poolReleased := false, ensureTablesCalls := 0 }
  | retries, fuel + 1 =>
    if attempt retries = AttemptOutcome.success then
      { errMsg := none, attemptsMade := 1, sleptMs := 0,
        poolReleased := false,
        ensureTablesCalls := tablesRan createTables (attempt retries) }
    else if maxRetries ≤ retries + 1 then
      { errMsg := some (serverExhaustMsg engine maxRetries
          ((outcomeCause (attempt retries)).getD "")),
        attemptsMade := 1, sleptMs := 0, poolReleased := true,
        ensureTablesCalls := tablesRan createTables (attempt retries) }
    else
      let rest := serverCreateLoop engine attempt createTables maxRetries
        retryDelay (retries + 1) fuel
      { errMsg := rest.errMsg, attemptsMade := rest.attemptsMade + 1,
        sleptMs := rest.sleptMs + retryDelay,
        poolReleased := rest.poolReleased,
        ensureTablesCalls :=
          rest.ensureTablesCalls + tablesRan createTables (attempt retries) }

/-- Construction of a server-backed (postgres or mysql) DrizzleSession. -/
def serverCreate (engine : String) (attempt : Nat → AttemptOutcome)
    (createTables : Bool) (maxRetries retryDelay : Nat) : CreateOutcome :=
  serverCreateLoop engine attempt createTables maxRetries retryDelay 0
    maxRetries

/-- Construction of the embedded variant, createSqliteSession: one try block
around the whole construction, no loop — a failure is immediately rethrown
wrapped with a descriptive message; there is no pool. -/
def sqliteCreateOutcome (o : AttemptOutcome) (createTables : Bool) :
    CreateOutcome :=
  if o = AttemptOutcome.success then
    { errMsg := none, attemptsMade := 1, sleptMs := 0, poolReleased := false,
      ensureTablesCalls := if createTables then 1 else 0 }
  else
    { errMsg := some ("Failed to create SQLite session: "
        ++ (outcomeCause o).getD ""),
      attemptsMade := 1, sleptMs := 0, poolReleased := false,
      ensureTablesCalls := tablesRan createTables o }

theorem serverCreateLoop_all_fail
    (engine : String) (attempt : Nat → AttemptOutcome) (ct : Bool)
    (maxRetries retryDelay : Nat)
    (hfail : ∀ i, ¬ attempt i = AttemptOutcome.success) :
    ∀ fuel retries, 1 ≤ fuel → retries + fuel = maxRetries →
      serverCreateLoop engine attempt ct maxRetries retryDelay retries fuel
        = { errMsg := some (serverExhaustMsg engine maxRetries
              ((outcomeCause (attempt (maxRetries - 1))).getD "")),
            attemptsMade := fuel, sleptMs := (fuel - 1) * retryDelay,
            poolReleased := true,
            ensureTablesCalls :=
              ((List.range' retries fuel).map
                (fun i => tablesRan ct (attempt i))).sum } := by
  intro fuel
  induction fuel with
  | zero =>
    intro retries h0 _
    omega
  | succ fuel ih =>
    intro retries hfuel hsum
    have hns := hfail retries
    by_cases hend : maxRetries ≤ retries + 1
    · have hf0 : fuel = 0 := by omega
      subst hf0
      have hlast : maxRetries - 1 = retries := by omega
      simp only [serverCreateLoop, if_neg hns, if_pos hend, hlast]
      simp [List.range']
    · have hf1 : 1 ≤ fuel := by omega
      have hrest := ih (retries + 1) hf1 (by omega)
      simp only [serverCreateLoop, if_neg hns, if_neg hend, hrest]
      simp only [CreateOutcome.mk.injEq, and_true, true_and]
      refine ⟨?_, ?_⟩
      · show (fuel - 1) * retryDelay + retryDelay = (fuel + 1 - 1) * retryDelay
        have h2 : fuel + 1 - 1 = fuel := rfl
        rw [h2]
        conv_rhs => rw [show fuel = (fuel - 1) + 1 by omega]
        rw [Nat.succ_mul]
      · show _ = ((List.range' retries (fuel + 1)).map
            (fun i => tablesRan ct (attempt i))).sum
        rw [List.range'_succ retries fuel 1, List.map_cons, List.sum_cons]
        exact Nat.add_comm _ _

theorem sum_map_range'_const_one (f : Nat → Nat) (hf : ∀ i, f i = 1) :
    ∀ (n s : Nat), ((List.range' s n).map f).sum = n := by
  intro n
  induction n with
  | zero => intro s; rfl
  | succ n ih =>
    intro s
    rw [List.range'_succ s n 1, List.map_cons, List.sum_cons, hf, ih]
    omega

/-- C6: when every construction attempt fails, a server-backed (postgres or
mysql) construction runs exactly the configured maxRetries attempts with the
fixed retryDelay slept between consecutive attempts ((maxRetries-1) sleeps
in total), then surfaces an error message interpolating the attempt count
and releases the pool; the embedded sqlite construction never retries — one
attempt, no sleeping, no pool, and the failure is immediately rethrown
wrapped as "Failed to create SQLite session: <cause>". -/
theorem C6_construction_retry (attempt : Nat → AttemptOutcome) (ct : Bool)
    (maxRetries retryDelay : Nat) (o : AttemptOutcome)
    (hfail : ∀ i, ¬ attempt i = AttemptOutcome.success)
    (hmr : 1 ≤ maxRetries) (ho : ¬ o = AttemptOutcome.success) :
    serverCreate "PostgreSQL" attempt ct maxRetries retryDelay
      = { errMsg := some (serverExhaustMsg "PostgreSQL" maxRetries
            ((outcomeCause (attempt (maxRetries - 1))).getD "")),
          attemptsMade := maxRetries,
          sleptMs := (maxRetries - 1) * retryDelay,
          poolReleased := true,
          ensureTablesCalls := ((List.range' 0 maxRetries).map
            (fun i => tablesRan ct (attempt i))).sum }
    ∧ serverCreate "MySQL" attempt ct maxRetries retryDelay
      = { errMsg := some (serverExhaustMsg "MySQL" maxRetries
            ((outcomeCause (attempt (maxRetries - 1))).getD "")),
          attemptsMade := maxRetries,
          sleptMs := (maxRetries - 1) * retryDelay,
          poolReleased := true,
          ensureTablesCalls := ((List.range' 0 maxRetries).map
            (fun i => tablesRan ct (attempt i))).sum }
    ∧ sqliteCreateOutcome o ct
      = { errMsg := some ("Failed to create SQLite session: "
            ++ (outcomeCause o).getD ""),
          attemptsMade := 1, sleptMs := 0, poolReleased := false,
          ensureTablesCalls := tablesRan ct o } := by
  refine ⟨?_, ?_, ?_⟩
  · exact serverCreateLoop_all_fail "PostgreSQL" attempt ct maxRetries
      retryDelay hfail maxRetries 0 hmr (by omega)
  · exact serverCreateLoop_all_fail "MySQL" attempt ct maxRetries
      retryDelay hfail maxRetries 0 hmr (by omega)
  · rw [sqliteCreateOutcome, if_neg ho]

/-- C6 (witness): the retry theorem applied to a construction whose attempts
all fail with a connection refusal, at the default maxRetries = 3 and
retryDelay = 1000. -/
theorem C6_construction_retry_witness :
    (serverCreate "PostgreSQL" (fun _ => AttemptOutcome.failConnect "refused")
        true 3 1000).attemptsMade = 3
    ∧ (serverCreate "PostgreSQL" (fun _ => AttemptOutcome.failConnect "refused")
        true 3 1000).errMsg = some (serverExhaustMsg "PostgreSQL" 3 "refused")
    ∧ (serverCreate "PostgreSQL" (fun _ => AttemptOutcome.failConnect "refused")
        true 3 1000).sleptMs = 2 * 1000
    ∧ (serverCreate "PostgreSQL" (fun _ => AttemptOutcome.failConnect "refused")
        true 3 1000).poolReleased = true
    ∧ (sqliteCreateOutcome (AttemptOutcome.failConnect "no such file") true).attemptsMade = 1 := by
  have h := C6_construction_retry
    (fun _ => AttemptOutcome.failConnect "refused") true 3 1000
    (AttemptOutcome.failConnect "no such file")
    (fun i h => AttemptOutcome.noConfusion h) (by decide)
    (fun h => AttemptOutcome.noConfusion h)
  refine ⟨?_, ?_, ?_, ?_, ?_⟩
  · rw [h.1]
  · rw [h.1]
    rfl
  · rw [h.1]
  · rw [h.1]
  · rw [h.2.2]

/-!
## Claim C7 — are provisioning failures retried?

The claim says a table/index creation failure is surfaced and never
retried.  That is true of the embedded sqlite path (its single try block
re-throws immediately), but in createPostgresSession and createMysqlSession
the call to ensureTables sits INSIDE the retry while-loop, so a provisioning
failure is retried like a connection failure: with createTables set and
provisioning failing deterministically, the provisioning statements run
maxRetries times (3 by default) before the failure is reported.
-/

/-- C7 (counterexample): with provisioning failing on every attempt, the
postgres construction runs the provisioning statements three times (default
maxRetries), not exactly once. -/
theorem C7_provision_retried_cx :
    (serverCreate "PostgreSQL"
        (fun _ => AttemptOutcome.failProvision "create table failed")
        true 3 1000).ensureTablesCalls = 3
    ∧ ¬ (serverCreate "PostgreSQL"
        (fun _ => AttemptOutcome.failProvision "create table failed")
        true 3 1000).ensureTablesCalls = 1 := by
  constructor
  · rfl
  · decide

/-- C7 (amended): a provisioning failure during construction is surfaced to
the caller in every variant, but only the embedded sqlite variant attempts
the provisioning statements exactly once; the server-backed variants retry
them together with the connection, attempting them maxRetries times before
the failure is reported. -/
theorem C7_provisioning_amended (maxRetries retryDelay : Nat) (cause : String)
    (hmr : 1 ≤ maxRetries) :
    (sqliteCreateOutcome (AttemptOutcome.failProvision cause) true).ensureTablesCalls = 1
    ∧ (sqliteCreateOutcome (AttemptOutcome.failProvision cause) true).errMsg
        = some ("Failed to create SQLite session: " ++ cause)
    ∧ (serverCreate "PostgreSQL" (fun _ => AttemptOutcome.failProvision cause)
          true maxRetries retryDelay).ensureTablesCalls = maxRetries
    ∧ (serverCreate "PostgreSQL" (fun _ => AttemptOutcome.failProvision cause)
          true maxRetries retryDelay).errMsg
        = some (serverExhaustMsg "PostgreSQL" maxRetries cause) := by
  have h := serverCreateLoop_all_fail "PostgreSQL"
    (fun _ => AttemptOutcome.failProvision cause) true maxRetries retryDelay
    (fun i h => AttemptOutcome.noConfusion h) maxRetries 0 hmr (by omega)
  refine ⟨rfl, rfl, ?_, ?_⟩
  · rw [serverCreate, h]
    exact sum_map_range'_const_one _ (fun i => rfl) maxRetries 0
  · rw [serverCreate, h]
    rfl

/-- C7 (witness): the amended theorem at maxRetries = 3. -/
theorem C7_provisioning_amended_witness :
    (1 ≤ 3)
    ∧ (serverCreate "PostgreSQL" (fun _ => AttemptOutcome.failProvision "boom")
          true 3 500).ensureTablesCalls = 3
    ∧ (sqliteCreateOutcome (AttemptOutcome.failProvision "boom") true).ensureTablesCalls = 1 :=
  ⟨by decide,
   (C7_provisioning_amended 3 500 "boom" (by decide)).2.2.1,
   (C7_provisioning_amended 3 500 "boom" (by decide)).1⟩

/-!
## Claim C8 — the createTables default

DrizzleSession resolves its config by spreading the caller's partial config
over DEFAULT_CONFIG = { createTables: true, maxRetries: 3, retryDelay: 1000,
connectionTimeout: 10000 } and calls ensureTables before returning whenever
the resolved createTables is set.  SequelizeSession.fromUrl, however,
destructures its options with `createTables = false`, so omitting the option
there provisions nothing.
-/

/-- DrizzleSession's ConnectionConfig: every field optional. -/
structure ConnectionConfig where
  createTables : Option Bool
  maxRetries : Option Nat
  retryDelay : Option Nat
  connectionTimeout : Option Nat
deriving Repr, DecidableEq

/-- DrizzleSession's fully resolved configuration. -/
structure ResolvedConfig where
  createTables : Bool
  maxRetries : Nat
  retryDelay : Nat
  connectionTimeout : Nat
deriving Repr, DecidableEq

/-- DEFAULT_CONFIG of DrizzleSession. -/
def DEFAULT_CONFIG : ResolvedConfig :=
  { createTables := true, maxRetries := 3, retryDelay := 1000,
    connectionTimeout := 10000 }

/-- The spread merge of DrizzleSession.fromUrl: every omitted field falls
back to DEFAULT_CONFIG. -/
def finalConfig (c : ConnectionConfig) : ResolvedConfig :=
  { createTables := c.createTables.getD DEFAULT_CONFIG.createTables,
    maxRetries := c.maxRetries.getD DEFAULT_CONFIG.maxRetries,
    retryDelay := c.retryDelay.getD DEFAULT_CONFIG.retryDelay,
    connectionTimeout := c.connectionTimeout.getD DEFAULT_CONFIG.connectionTimeout }

/-- A fromUrl call whose caller passes no configuration at all. -/
def omittedConfig : ConnectionConfig := ⟨none, none, none, none⟩

/-- Whether DrizzleSession.fromUrl provisions the tables before returning:
it runs ensureTables iff the resolved createTables is set. -/
def drizzleFromUrlProvisions (c : ConnectionConfig) : Bool :=
  (finalConfig c).createTables

/-- SequelizeSession.fromUrl options. -/
structure SequelizeFromUrlOptions where
  createTables : Option Bool
  tableName : Option String
deriving Repr, DecidableEq

/-- Whether SequelizeSession.fromUrl provisions (model.sync()) before
returning: its destructuring reads `const { createTables = false } =
options`, so the omitted option defaults to false. -/
def sequelizeFromUrlProvisions (o : SequelizeFromUrlOptions) : Bool :=
  o.createTables.getD false

/-- C8 (counterexample): a SequelizeSession.fromUrl construction with
createTables omitted provisions nothing — the default there is false, not
the claimed true. -/
theorem C8_sequelize_default_cx :
    sequelizeFromUrlProvisions ⟨none, none⟩ = false
    ∧ ¬ sequelizeFromUrlProvisions ⟨none, none⟩ = true := by
  constructor
  · rfl
  · decide

/-- C8 (amended): DrizzleSession's createTables option does default to true
— with the option omitted the resolved config equals DEFAULT_CONFIG =
(true, 3, 1000, 10000) and a successful construction runs the
create-if-absent provisioning exactly once before returning — but
SequelizeSession.fromUrl defaults createTables to false, so omitting the
option there provisions no tables. -/
theorem C8_createTables_default_amended :
    DEFAULT_CONFIG.createTables = true
    ∧ finalConfig omittedConfig = DEFAULT_CONFIG
    ∧ drizzleFromUrlProvisions omittedConfig = true
    ∧ (serverCreate "PostgreSQL" (fun _ => AttemptOutcome.success)
        (drizzleFromUrlProvisions omittedConfig) 3 1000).ensureTablesCalls = 1
    ∧ sequelizeFromUrlProvisions ⟨none, none⟩ = false :=
  ⟨rfl, rfl, rfl, rfl, rfl⟩

/-!
## Claim C9 — close() and externally supplied engines
-/

/-- The ownership-relevant construction record of a SequelizeSession: the
session id and the private ownSequelize flag.  The flag is assigned once in
the private constructor and no method of the class ever writes it again, so
the model carries it as an immutable field. -/
structure SequelizeSessionHandle where
  sessionId : String
  ownSequelize : Bool
deriving Repr, DecidableEq

/-- SequelizeSession.fromUrl: builds its own Sequelize engine from the URL
and constructs with ownSequelize = true. -/
def sequelizeFromUrl (sid : String) : SequelizeSessionHandle :=
  { sessionId := sid, ownSequelize := true }

/-- SequelizeSession.fromSequelize: wraps a caller-supplied, already-open
engine and constructs with ownSequelize = false — ownership is not
transferred. -/
def sequelizeFromSequelize (sid : String) : SequelizeSessionHandle :=
  { sessionId := sid, ownSequelize := false }

/-- SequelizeSession.close: awaits sequelize.close() only when this instance
owns the engine; the argument is whether the engine is open before the call,
the result whether it is open after. -/
def sequelizeClose (s : SequelizeSessionHandle) (engineOpen : Bool) : Bool :=
  if s.ownSequelize then false else engineOpen

/-- C9: an adapter built from an externally supplied engine
(fromSequelize) records ownSequelize = false at construction and its close()
leaves the external engine exactly as it was — an open engine remains open
and usable; an adapter that created its own engine (fromUrl) records
ownSequelize = true and its close() does release the engine.  The flag is
fixed at construction: it is a field of the immutable construction record,
which no operation rewrites. -/
theorem C9_external_engine_ownership (sid : String) (engineOpen : Bool) :
    (sequelizeFromSequelize sid).ownSequelize = false
    ∧ sequelizeClose (sequelizeFromSequelize sid) engineOpen = engineOpen
    ∧ sequelizeClose (sequelizeFromSequelize sid) true = true
    ∧ (sequelizeFromUrl sid).ownSequelize = true
    ∧ sequelizeClose (sequelizeFromUrl sid) engineOpen = false :=
  ⟨rfl, rfl, rfl, rfl, rfl⟩
